import Mathlib

/-!
Verification of the process execution and streaming-output subsystem of
httprunner (src/main.go) via a shallow embedding in Lean.

Modelling conventions:
  - bytes are natural numbers (for ASCII text, the character code);
  - Go byte slices are lists of naturals;
  - the shared `*bytes.Buffer` inside `limitWriter` is modelled as the list of
    bytes written but not yet read, carried in the state;
  - wall-clock instants are natural numbers, with `time.Before` as `<` and
    `time.Add` as `+`;
  - operations that Go runs for their effects (HTTP response writes, registry
    mutation, kill signals) are modelled as explicit state passing plus an
    event list.
-/

/-- State of the `limitWriter` struct (src/main.go lines 285-295).  The unused
`deadline` field is omitted.  `buf` is the content of the shared
`*bytes.Buffer` the field points to; `sum` and `discarding` are plain struct
fields.  The two mutexes are synchronisation devices with no sequential
content and are not part of the sequential state. -/
structure LimitWriter where
  limit : Nat
  sum : Nat
  buf : List Nat
  discarding : Bool
deriving Repr, DecidableEq

/-- `limitWriter.Write` (lines 297-314) exactly as Go executes it.  The method
is declared on a VALUE receiver (`func (lw limitWriter) Write`), so the
assignments `lw.sum += n` and `lw.discarding = true` act on a per-call copy of
the struct and are lost when the call returns; only the `bytes.Buffer` that
`buf` points to is shared, so only the buffer append persists.  In the
discarding branch `ioutil.Discard.Write(p)` returns `(len p, nil)`; in the
other branch `bytes.Buffer.Write` also returns `(len p, nil)`.  The result is
the pair (returned byte count, state after the call). -/
def LimitWriter.write (lw : LimitWriter) (p : List Nat) : Nat × LimitWriter :=
  if lw.discarding then
    (p.length, lw)
  else
    (p.length, { lw with buf := lw.buf ++ p })

/-- A sequence of `Write` calls, folded left to right. -/
def LimitWriter.writeAll (lw : LimitWriter) (ps : List (List Nat)) : LimitWriter :=
  ps.foldl (fun s p => (s.write p).2) lw

/-- The `limitWriter` value built in `handleCommand` (lines 397-400):
ceiling 1 MiB, fresh shared buffer, not discarding. -/
def initLW : LimitWriter := ⟨2 ^ 20, 0, [], false⟩

/-- A single `Write` call never changes `sum`, `discarding` or `limit`: the
value receiver drops the struct-field assignments made in the method body. -/
theorem write_keeps_fields (lw : LimitWriter) (p : List Nat) :
    ((lw.write p).2).sum = lw.sum ∧ ((lw.write p).2).discarding = lw.discarding ∧
      ((lw.write p).2).limit = lw.limit := by
  unfold LimitWriter.write
  split <;> simp

/-- From a non-discarding state, any sequence of writes stores every byte in
the shared buffer and leaves `sum` and `discarding` unchanged. -/
theorem writeAll_stores_everything (ps : List (List Nat)) :
    ∀ lw : LimitWriter, lw.discarding = false →
      (lw.writeAll ps).sum = lw.sum ∧ (lw.writeAll ps).discarding = false ∧
        (lw.writeAll ps).limit = lw.limit ∧ (lw.writeAll ps).buf = lw.buf ++ ps.flatten := by
  induction ps with
  | nil => intro lw h; simp [LimitWriter.writeAll, h]
  | cons p ps ih =>
    intro lw h
    have hstep : (lw.write p).2 = { lw with buf := lw.buf ++ p } := by
      unfold LimitWriter.write
      simp [h]
    have := ih { lw with buf := lw.buf ++ p } (by simp [h])
    simpa [LimitWriter.writeAll, hstep, List.append_assoc] using this

/-- C1 (code_bug evidence): with the 1 MiB ceiling of `handleCommand`, two
`Write` calls of 2^20 bytes each (cumulative 2 MiB, twice the ceiling) leave
`discarding = false`, `sum = 0`, and all 2^21 bytes stored in the buffer.  The
value receiver makes the ceiling logic of the method body ineffective: the
discard flag never becomes true, every subsequent write is still stored and
the retained content is not bounded by the ceiling, contradicting the claim
at this input. -/
theorem limitWriter_never_discards :
    (initLW.writeAll [List.replicate (2 ^ 20) 65, List.replicate (2 ^ 20) 66]).discarding
        = false ∧
      (initLW.writeAll [List.replicate (2 ^ 20) 65, List.replicate (2 ^ 20) 66]).sum = 0 ∧
      initLW.limit <
        (initLW.writeAll [List.replicate (2 ^ 20) 65, List.replicate (2 ^ 20) 66]).buf.length := by
  have h := writeAll_stores_everything
    [List.replicate (2 ^ 20) 65, List.replicate (2 ^ 20) 66] initLW rfl
  obtain ⟨hsum, hdisc, _, hbuf⟩ := h
  refine ⟨hdisc, ?_, ?_⟩
  · simpa only [initLW] using hsum
  · rw [hbuf]
    simp only [initLW, List.flatten_cons, List.flatten_nil, List.append_nil,
      List.nil_append, List.length_append, List.length_replicate]
    norm_num

/-- `limitWriter.Read` (lines 316-326).  If the (per-call copy of the)
`discarding` flag is set, the method returns `(0, io.EOF)` without touching
the buffer.  Otherwise it reads from the shared `bytes.Buffer`:
`bytes.Buffer.Read` returns up to `k` buffered bytes, and returns
`(0, io.EOF)` when the buffer is empty and `k` is nonzero.  `Read` mutates
only the shared buffer, so value-receiver copying does not change its
semantics.  Result: (bytes read, end-of-stream flag, state after the call). -/
def LimitWriter.read (lw : LimitWriter) (k : Nat) : List Nat × Bool × LimitWriter :=
  if lw.discarding then
    ([], true, lw)
  else if lw.buf.isEmpty then
    ([], k != 0, lw)
  else
    (lw.buf.take k, false, { lw with buf := lw.buf.drop k })

/-- C4 counterexample: a buffer in the discarding state holding the stored
bytes `[1, 2, 3]` answers a read of 8 bytes with zero bytes and an immediate
end-of-stream, leaving the state unchanged, even though stored bytes remain.
So a read on a discarding buffer signals end-of-stream unconditionally — not
"only when no stored bytes remain" — and the bytes stored before the ceiling
was crossed are not retrievable by subsequent reads once the flag is set. -/
theorem read_discarding_loses_bytes :
    (⟨4, 5, [1, 2, 3], true⟩ : LimitWriter).read 8 =
        ([], true, (⟨4, 5, [1, 2, 3], true⟩ : LimitWriter)) ∧
      ((⟨4, 5, [1, 2, 3], true⟩ : LimitWriter).buf ≠ []) := by
  decide

/-- C4 (amended): a read on a discarding buffer returns no bytes and signals
end-of-stream immediately and unconditionally, so stored bytes that were not
drained before the flag was set are unretrievable; on a non-discarding buffer
a read returns a leading segment of the stored bytes, the split being exact
(read bytes followed by remaining bytes is the original store), and signals
end-of-stream exactly when no stored bytes remain and the request is for at
least one byte. -/
theorem read_spec (lw : LimitWriter) (k : Nat) :
    (lw.discarding = true → lw.read k = ([], true, lw)) ∧
    (lw.discarding = false →
      (lw.read k).1 ++ ((lw.read k).2.2).buf = lw.buf ∧
        ((lw.read k).2.1 = true ↔ (lw.buf = [] ∧ k ≠ 0))) := by
  unfold LimitWriter.read
  constructor
  · intro h; simp [h]
  · intro h
    simp only [h]
    by_cases hb : lw.buf.isEmpty
    · have : lw.buf = [] := by simpa [List.isEmpty_iff] using hb
      simp [hb, this]
    · have : lw.buf ≠ [] := by simpa [List.isEmpty_iff] using hb
      simp [hb, this, List.take_append_drop]

/-- Concrete instance of `read_spec`: reading 1 byte from a non-discarding
buffer holding `[7, 8]` splits the store exactly and does not signal
end-of-stream. -/
theorem read_spec_witness :
    ((⟨4, 0, [7, 8], false⟩ : LimitWriter).read 1).1 ++
        (((⟨4, 0, [7, 8], false⟩ : LimitWriter).read 1).2.2).buf = [7, 8] ∧
      (((⟨4, 0, [7, 8], false⟩ : LimitWriter).read 1).2.1 = true ↔
        (([7, 8] : List Nat) = [] ∧ (1 : Nat) ≠ 0)) :=
  (read_spec ⟨4, 0, [7, 8], false⟩ 1).2 rfl

/-- The `children` map (line 234): spawn timestamp to process handle.  A
process handle is identified by its pid.  Modelled as an association list
whose key set mirrors the Go map; insertion overwrites an existing key, as a
Go map assignment does. -/
abbrev Registry := List (Nat × Nat)

/-- `children[startTime] = cmd.Process` (line 411): Go map assignment —
any existing entry under the same key is replaced. -/
def insertChild (reg : Registry) (t pid : Nat) : Registry :=
  reg.filter (fun e => e.1 != t) ++ [(t, pid)]

/-- The shared mutable server state touched by `handleCommand`: the rate
limiter timestamp `lastRun` (line 238) and the `children` registry. -/
structure SState where
  lastRun : Nat
  children : Registry
deriving Repr, DecidableEq

/-- Observable actions of the handlers: response-side calls on the
`http.ResponseWriter` (`setContentType`/`writeHeader`/`write`, plus
`httpError` for `http.Error`) and process-side actions (registration,
unregistration, kill signals). -/
inductive Ev where
  | setContentType (value : String)
  | writeHeader (status : Nat)
  | write (bytes : List Nat)
  | httpError (status : Nat) (msg : String)
  | register (t : Nat) (pid : Nat)
  | unregister (t : Nat)
  | kill (pid : Nat)
deriving Repr, DecidableEq

/-- Classifies the events a handler can emit on the response side only. -/
def Ev.isResponse : Ev → Bool
  | .setContentType _ => true
  | .writeHeader _ => true
  | .write _ => true
  | .httpError _ _ => true
  | .register _ _ => false
  | .unregister _ => false
  | .kill _ => false

/-- How a run request ends its starting phase. -/
inductive RunOutcome where
  | rateLimited
  | spawnFailed
  | started (startTime : Nat) (pid : Nat)
deriving Repr, DecidableEq

/-- Result of the starting phase: the new shared state, the outcome, the
events emitted so far, and the key of the completion watcher goroutine
spawned for the process (exactly one per successful start, none otherwise). -/
structure StartResult where
  state : SState
  outcome : RunOutcome
  events : List Ev
  watcher : Option Nat
deriving Repr, DecidableEq

/-- Lines 383-423 of `handleCommand`: the rate-limiter gate, the spawn, the
registration and the rate-limiter update.  `rate` is `*flagRate` (0 disables
the gate); `tCheck` is the `time.Now()` of the gate (line 386); `spawnOk`
tells whether `cmd.Start()` succeeds; `tStart` is the `time.Now()` stored as
the registry key (line 409); `tRecord` is the `time.Now()` stored into
`lastRun` (line 414).  If the gate rejects, `http.Error` writes a 429 and the
handler returns, leaving the state untouched.  If the spawn fails, the
handler only logs and returns: no response is written, nothing is registered,
`lastRun` keeps its value.  On success the process is registered under the
bare timestamp `tStart`, `lastRun` is updated, and the completion watcher
goroutine is spawned. -/
def handleCommandStart (rate tCheck : Nat) (spawnOk : Bool) (pid tStart tRecord : Nat)
    (s : SState) : StartResult :=
  if rate ≠ 0 ∧ tCheck < s.lastRun + rate then
    { state := s, outcome := .rateLimited,
      events := [Ev.httpError 429 "Command process creation is rate limited"],
      watcher := none }
  else if spawnOk = false then
    { state := s, outcome := .spawnFailed, events := [], watcher := none }
  else
    { state := { lastRun := tRecord, children := insertChild s.children tStart pid },
      outcome := .started tStart pid,
      events := [Ev.register tStart pid],
      watcher := some tStart }

/-- The goroutine of lines 416-423: after `cmd.Wait()` observes the exit of
the process, it deletes its own `startTime` key from the `children` map
(`delete` is a no-op when the key is already absent).  Result: the registry
after removal and the action performed. -/
def completionWatcher (startTime : Nat) (reg : Registry) : Registry × List Ev :=
  (reg.filter (fun e => e.1 != startTime), [Ev.unregister startTime])

/-- C2: with a positive rate interval, a run request is rejected with the 429
"too many requests" error exactly when its arrival time is earlier than the
last recorded start plus the interval; a rejected request changes no state,
spawns no watcher and writes only the 429 error; and the `lastRun` timestamp
either keeps its old value or is updated together with a successful start. -/
theorem rateLimiter_reject_iff (rate tCheck pid tStart tRecord : Nat) (spawnOk : Bool)
    (s : SState) (hR : 0 < rate) :
    ((handleCommandStart rate tCheck spawnOk pid tStart tRecord s).outcome = .rateLimited ↔
        tCheck < s.lastRun + rate) ∧
    (tCheck < s.lastRun + rate →
      handleCommandStart rate tCheck spawnOk pid tStart tRecord s =
        { state := s, outcome := .rateLimited,
          events := [Ev.httpError 429 "Command process creation is rate limited"],
          watcher := none }) ∧
    ((handleCommandStart rate tCheck spawnOk pid tStart tRecord s).state.lastRun = s.lastRun ∨
      ((handleCommandStart rate tCheck spawnOk pid tStart tRecord s).state.lastRun = tRecord ∧
        (handleCommandStart rate tCheck spawnOk pid tStart tRecord s).outcome =
          .started tStart pid)) := by
  have hne : rate ≠ 0 := Nat.pos_iff_ne_zero.mp hR
  unfold handleCommandStart
  by_cases hlt : tCheck < s.lastRun + rate
  · simp [hne, hlt]
  · cases spawnOk <;> simp [hne, hlt]

/-- Concrete instance of `rateLimiter_reject_iff`: with interval 10 and last
start 0, a request at time 3 is rejected and the state is unchanged. -/
theorem rateLimiter_reject_iff_witness :
    ((handleCommandStart 10 3 true 7 4 5 ⟨0, []⟩).outcome = .rateLimited ↔
        (3 : Nat) < 0 + 10) ∧
      ((3 : Nat) < 0 + 10 →
        handleCommandStart 10 3 true 7 4 5 ⟨0, []⟩ =
          { state := ⟨0, []⟩, outcome := .rateLimited,
            events := [Ev.httpError 429 "Command process creation is rate limited"],
            watcher := none }) ∧
      ((handleCommandStart 10 3 true 7 4 5 ⟨0, []⟩).state.lastRun = 0 ∨
        ((handleCommandStart 10 3 true 7 4 5 ⟨0, []⟩).state.lastRun = 5 ∧
          (handleCommandStart 10 3 true 7 4 5 ⟨0, []⟩).outcome = .started 4 7)) :=
  rateLimiter_reject_iff 10 3 7 4 5 true ⟨0, []⟩ (by decide)

/-- C7 counterexample: when `cmd.Start()` fails (here with the rate gate
disabled, `rate = 0`), the handler emits no event at all — in particular no
internal-error status is written to the response; it registers nothing,
leaves `lastRun` unchanged and spawns no watcher. -/
theorem spawnFailure_no_error_response :
    (handleCommandStart 0 0 false 7 1 2 ⟨0, []⟩).events = [] ∧
      handleCommandStart 0 0 false 7 1 2 ⟨0, []⟩ =
        { state := ⟨0, []⟩, outcome := .spawnFailed, events := [], watcher := none } := by
  constructor <;> rfl

/-- C7 (amended): for every run request that passes the rate gate and whose
process fails to spawn, the handler logs and returns at once: the response is
left untouched (no internal-error status — the caller will observe the
implicit empty 200 of net/http), nothing is registered, the rate-limiter
timestamp keeps its value, no watcher is spawned, and the request transitions
directly to FINISHED. -/
theorem spawnFailure_amended (rate tCheck pid tStart tRecord : Nat) (s : SState)
    (hA : rate = 0 ∨ s.lastRun + rate ≤ tCheck) :
    handleCommandStart rate tCheck false pid tStart tRecord s =
      { state := s, outcome := .spawnFailed, events := [], watcher := none } := by
  unfold handleCommandStart
  rcases hA with h0 | hle
  · simp [h0]
  · simp [Nat.not_lt.mpr hle]

/-- Concrete instance of `spawnFailure_amended` with an enabled rate gate that
admits the request. -/
theorem spawnFailure_amended_witness :
    handleCommandStart 10 12 false 7 1 2 ⟨0, []⟩ =
      { state := ⟨0, []⟩, outcome := .spawnFailed, events := [], watcher := none } :=
  spawnFailure_amended 10 12 7 1 2 ⟨0, []⟩ (Or.inr (by decide))

/-- `killChildren` (lines 328-337): under the write lock it ranges over the
`children` map calling `Kill()` on every process — logging, but otherwise
ignoring, a failed signal — and then replaces the map by a fresh empty one.
`killOk pid` tells whether the termination signal to `pid` succeeds.  Result:
the new registry, the pids signalled (in iteration order), and the pids whose
signal failed (the logged failures, in iteration order). -/
def killChildren (killOk : Nat → Bool) (reg : Registry) :
    Registry × List Nat × List Nat :=
  let r := reg.foldl
    (fun (acc : List Nat × List Nat) e =>
      (acc.1 ++ [e.2], if killOk e.2 then acc.2 else acc.2 ++ [e.2]))
    ([], [])
  ([], r.1, r.2)

theorem killChildren_fold (killOk : Nat → Bool) :
    ∀ (reg : Registry) (acc : List Nat × List Nat),
      reg.foldl
        (fun (acc : List Nat × List Nat) e =>
          (acc.1 ++ [e.2], if killOk e.2 then acc.2 else acc.2 ++ [e.2])) acc =
      (acc.1 ++ reg.map Prod.snd,
        acc.2 ++ (reg.filter (fun e => !killOk e.2)).map Prod.snd) := by
  intro reg
  induction reg with
  | nil => intro acc; simp
  | cons e rest ih =>
    intro acc
    by_cases h : killOk e.2
    · simpa [h, List.append_assoc] using ih (acc.1 ++ [e.2], acc.2)
    · simpa [h, List.append_assoc] using ih (acc.1 ++ [e.2], acc.2 ++ [e.2])

/-- C5: for every registry state and every outcome of the individual
termination signals, `killChildren` sends a kill signal to every currently
registered process (none is skipped when an earlier signal fails), collects
exactly the failed signals as its logged failure list, and afterwards leaves
the registry empty — including the entries whose signal failed. -/
theorem killChildren_spec (killOk : Nat → Bool) (reg : Registry) :
    killChildren killOk reg =
      ([], reg.map Prod.snd, (reg.filter (fun e => !killOk e.2)).map Prod.snd) := by
  unfold killChildren
  rw [killChildren_fold]
  simp

/-- C9 counterexample: two successful starts whose `time.Now()` readings
coincide (both `5`) are registered under the same bare-timestamp key; the
second registration silently overwrites the first, leaving a single entry
`(5, 22)` where processes 11 and 22 had both been registered.  The key is not
widened beyond the bare start timestamp. -/
theorem registry_same_timestamp_overwrites :
    (handleCommandStart 0 0 true 11 5 1 ⟨0, []⟩).state.children = [(5, 11)] ∧
      (handleCommandStart 0 2 true 22 5 3
          (handleCommandStart 0 0 true 11 5 1 ⟨0, []⟩).state).state.children =
        [(5, 22)] := by
  constructor <;> rfl

/-- C9 (amended): the registry key is the bare start timestamp.  Two
registrations with distinct timestamps occupy distinct entries — both remain
present — but the registry holds at most one entry per timestamp, so two
processes starting at identical timestamp resolution collide and the second
silently overwrites the first. -/
theorem registry_bare_timestamp_keys (reg : Registry) (t1 p1 t2 p2 : Nat)
    (h : t1 ≠ t2) :
    ((t1, p1) ∈ insertChild (insertChild reg t1 p1) t2 p2 ∧
      (t2, p2) ∈ insertChild (insertChild reg t1 p1) t2 p2) ∧
    (∀ q, (t2, q) ∈ insertChild (insertChild reg t1 p1) t2 p2 → q = p2) := by
  refine ⟨⟨?_, ?_⟩, ?_⟩
  · unfold insertChild
    refine List.mem_append.mpr (Or.inl ?_)
    refine List.mem_filter.mpr ⟨List.mem_append.mpr (Or.inr ?_), ?_⟩
    · simp
    · simpa using h
  · unfold insertChild
    exact List.mem_append.mpr (Or.inr (by simp))
  · intro q hq
    unfold insertChild at hq
    rcases List.mem_append.mp hq with hin | hin
    · exact absurd (List.mem_filter.mp hin).2 (by simp)
    · simpa using hin

/-- Concrete instance of `registry_bare_timestamp_keys`: after registering
`(1, 11)` and then `(2, 22)` the registry keeps both entries, and key 2 maps
only to pid 22. -/
theorem registry_bare_timestamp_keys_witness :
    ((1, 11) ∈ insertChild (insertChild [] 1 11) 2 22 ∧
      (2, 22) ∈ insertChild (insertChild [] 1 11) 2 22) ∧
    (∀ q, (2, q) ∈ insertChild (insertChild [] 1 11) 2 22 → q = 22) :=
  registry_bare_timestamp_keys [] 1 11 2 22 (by decide)

/-- `sort.Sort(t)` on the `times` slice (lines 357-361, 370): sorts the
collected start times ascending, `Less` being `time.Before`, i.e. `<` on
instants (equivalently `≤`, as map keys are distinct).  Modelled by insertion
sort, which agrees with any correct sort. -/
def sortTimes (l : List Nat) : List Nat :=
  List.insertionSort (· ≤ ·) l

/-- `children[pt].Pid` (line 373): map lookup of the process registered under
`t`; the keys looped over come from the map itself, so the default 0 branch
is never taken on those keys. -/
def lookupPid (reg : Registry) (t : Nat) : Nat :=
  match reg.find? (fun e => e.1 == t) with
  | some e => e.2
  | none => 0

/-- One output line of `handleList` (line 373):
`fmt.Sprintf("%s : %d\n", pt.Format(time.RFC3339), children[pt].Pid)`.
`fmt` is the RFC3339 rendering of an instant, a stdlib call taken as a
parameter. -/
def listLine (fmt : Nat → String) (t pid : Nat) : String :=
  fmt t ++ " : " ++ toString pid ++ "\n"

/-- `handleList` (lines 363-381): under the read lock — in this sequential
model, as one atomic function of the registry — collect the keys of
`children`, sort them ascending, and print one `listLine` per key. -/
def handleList (fmt : Nat → String) (reg : Registry) : String :=
  String.join ((sortTimes (reg.map Prod.fst)).map
    (fun t => listLine fmt t (lookupPid reg t)))

theorem lookupPid_head (t p : Nat) (rest : Registry) :
    lookupPid ((t, p) :: rest) t = p := by
  unfold lookupPid
  simp [List.find?_cons]

theorem lookupPid_tail (a b t : Nat) (rest : Registry) (h : a ≠ t) :
    lookupPid ((a, b) :: rest) t = lookupPid rest t := by
  unfold lookupPid
  have : ((a, b).1 == t) = false := by simpa using h
  simp [List.find?_cons, this]

/-- With distinct keys, pairing every key with its looked-up pid recovers the
registry itself. -/
theorem map_lookupPid_eq (reg : Registry) (hnd : (reg.map Prod.fst).Nodup) :
    (reg.map Prod.fst).map (fun t => (t, lookupPid reg t)) = reg := by
  induction reg with
  | nil => rfl
  | cons e rest ih =>
    obtain ⟨t, p⟩ := e
    simp only [List.map_cons]
    have hcons := List.nodup_cons.mp
      (show (t :: rest.map Prod.fst).Nodup by simpa only [List.map_cons] using hnd)
    have hnotin : t ∉ rest.map Prod.fst := hcons.1
    have hnd' : (rest.map Prod.fst).Nodup := hcons.2
    rw [lookupPid_head]
    congr 1
    have hcongr : (rest.map Prod.fst).map (fun x => (x, lookupPid ((t, p) :: rest) x)) =
        (rest.map Prod.fst).map (fun x => (x, lookupPid rest x)) := by
      refine List.map_congr_left ?_
      intro a ha
      have hat : t ≠ a := fun hEq => hnotin (hEq ▸ ha)
      rw [lookupPid_tail t p a rest hat]
    rw [hcongr, ih hnd']

/-- C6: with distinct registry keys (the Go map guarantees this), the output
of `handleList` is exactly the registered (start time, pid) pairs — a
permutation of the registry snapshot — arranged in strictly ascending start
time order, one line per entry of the form `<RFC3339 time> : <pid>` followed
by a newline.  Mutual exclusion with concurrent mutation is represented by
`handleList` being a single atomic function of the registry state. -/
theorem handleList_sorted_lines (fmt : Nat → String) (reg : Registry)
    (hnd : (reg.map Prod.fst).Nodup) :
    ∃ es : Registry, es.Perm reg ∧ (es.map Prod.fst).Sorted (· < ·) ∧
      handleList fmt reg = String.join (es.map (fun e => listLine fmt e.1 e.2)) := by
  refine ⟨(sortTimes (reg.map Prod.fst)).map (fun t => (t, lookupPid reg t)), ?_, ?_, ?_⟩
  · have hperm : (sortTimes (reg.map Prod.fst)).Perm (reg.map Prod.fst) :=
      List.perm_insertionSort (· ≤ ·) (reg.map Prod.fst)
    have := hperm.map (fun t => (t, lookupPid reg t))
    rw [map_lookupPid_eq reg hnd] at this
    exact this
  · have hmap : ((sortTimes (reg.map Prod.fst)).map (fun t => (t, lookupPid reg t))).map
        Prod.fst = sortTimes (reg.map Prod.fst) := by
      rw [List.map_map]
      exact (List.map_congr_left (fun a _ => rfl)).trans (List.map_id _)
    rw [hmap]
    have hsorted : (sortTimes (reg.map Prod.fst)).Sorted (· ≤ ·) :=
      List.sorted_insertionSort (· ≤ ·) (reg.map Prod.fst)
    have hnd2 : (sortTimes (reg.map Prod.fst)).Nodup :=
      ((List.perm_insertionSort (· ≤ ·) (reg.map Prod.fst)).nodup_iff).mpr hnd
    exact hsorted.lt_of_le hnd2
  · unfold handleList
    rw [List.map_map]
    exact rfl

/-- Concrete instance of `handleList_sorted_lines` on the registry
`[(2, 7), (1, 5)]`. -/
theorem handleList_sorted_lines_witness :
    ∃ es : Registry, es.Perm [(2, 7), (1, 5)] ∧ (es.map Prod.fst).Sorted (· < ·) ∧
      handleList (fun t => toString t) [(2, 7), (1, 5)] =
        String.join (es.map (fun e => listLine (fun t => toString t) e.1 e.2)) :=
  handleList_sorted_lines (fun t => toString t) [(2, 7), (1, 5)] (by decide)

/-- ASCII strings as byte lists (character codes). -/
def strBytes (s : String) : List Nat :=
  s.data.map Char.toNat

/-- The literal placeholder of `sendResponse` (line 430). -/
def placeholderMsg : String := "Command started but no output yet."

/-- The content type set by the driver (line 455). -/
def ctPlain : String := "text/plain; charset=utf-8"

/-- `io.Copy(&bufout, lw)` (line 448): repeatedly calls `lw.Read` until it
reports end-of-stream.  On a (per-call copy) discarding state the very first
`Read` reports end-of-stream, so nothing is drained; otherwise the whole
current store is drained, in write order.  `bytes.Buffer` reads cannot fail
with a non-EOF error, so the error branch of line 449 is unreachable and the
copy always ends with a nil error.  Result: (bytes drained, state after). -/
def ioCopyAll (lw : LimitWriter) : List Nat × LimitWriter :=
  if lw.discarding then ([], lw)
  else (lw.buf, { lw with buf := [] })

/-- `sendResponse` (lines 425-435): writes the accumulated output to the
response if there is any, else the literal placeholder. -/
def sendResponse (bufout : List Nat) : List Ev :=
  if 0 < bufout.length then [Ev.write bufout]
  else [Ev.write (strBytes placeholderMsg)]

/-- One iteration of the drain loop as seen from its environment: the
`time.Now()` reading of the iteration, whether the 1-second `time.After`
channel is ready at the `select`, and the bytes the spawned process has
written to the capture buffer since the previous iteration (delivered through
`limitWriter.Write`; the per-iteration granularity models the interleaving of
the concurrent writer with the drain loop). -/
structure DStep where
  now : Nat
  timerFired : Bool
  arrived : List Nat
deriving Repr, DecidableEq

/-- Local state of the drain loop (lines 436-440): the capture buffer, the
accumulated output `bufout`, the `seenData` flag, and `lastDataTime`. -/
structure DrSt where
  lw : LimitWriter
  bufout : List Nat
  seenData : Bool
  lastDataTime : Nat
deriving Repr, DecidableEq

/-- Driver state on loop entry (lines 424-440): fresh buffer and output,
headers not yet sent, `lastDataTime` set to the current instant `t0`. -/
def initDriver (t0 : Nat) : DrSt :=
  { lw := initLW, bufout := [], seenData := false, lastDataTime := t0 }

/-- The drain loop of `handleCommand` (lines 441-467).  Per iteration: if the
deadline timer is ready, send the response and return; otherwise drain the
buffer into `bufout`; on the first nonempty drain set the Content-Type header
and write the 200 status (exactly once, guarded by `seenData`); on an empty
drain, break out — followed by the final `sendResponse` of line 467 — once
more than `maxIdle` has passed since the last data.  The result is `some`
(the emitted response events) when the loop exits within the given steps, and
`none` when the steps are exhausted with the loop still running. -/
def driverLoop (maxIdle : Nat) : List DStep → DrSt → Option (List Ev)
  | [], _ => none
  | step :: rest, s =>
    if step.timerFired then
      some (sendResponse s.bufout)
    else
      let r := ioCopyAll ((s.lw.write step.arrived).2)
      if 0 < r.1.length then
        let hdrEvs : List Ev :=
          if s.seenData then []
          else [Ev.setContentType ctPlain, Ev.writeHeader 200]
        Option.map (fun evs => hdrEvs ++ evs)
          (driverLoop maxIdle rest
            { lw := r.2, bufout := s.bufout ++ r.1, seenData := true,
              lastDataTime := step.now })
      else
        if s.lastDataTime + maxIdle < step.now then
          some (sendResponse (s.bufout ++ r.1))
        else
          driverLoop maxIdle rest
            { lw := r.2, bufout := s.bufout ++ r.1, seenData := s.seenData,
              lastDataTime := s.lastDataTime }


/-- `sendResponse` always performs exactly one body write. -/
theorem sendResponse_shape (b : List Nat) : ∃ bs, sendResponse b = [Ev.write bs] := by
  unfold sendResponse
  split
  · exact ⟨b, rfl⟩
  · exact ⟨strBytes placeholderMsg, rfl⟩

/-- From a state that has already seen data (headers already emitted), the
rest of the loop emits exactly one final body write and nothing else. -/
theorem driverLoop_seen (maxIdle : Nat) :
    ∀ (steps : List DStep) (s : DrSt) (evs : List Ev), s.seenData = true →
      driverLoop maxIdle steps s = some evs → ∃ bs, evs = [Ev.write bs] := by
  intro steps
  induction steps with
  | nil => intro s evs _ h; simp [driverLoop] at h
  | cons step rest ih =>
    intro s evs hseen h
    simp only [driverLoop] at h
    split at h
    · obtain ⟨bs, hbs⟩ := sendResponse_shape s.bufout
      exact ⟨bs, by rw [← Option.some.inj h, hbs]⟩
    · split at h
      · simp only [hseen, List.nil_append, Option.map_eq_some', if_true] at h
        obtain ⟨evs', hrec, hevs⟩ := h
        obtain ⟨bs, hbs⟩ := ih _ evs' rfl hrec
        exact ⟨bs, by rw [← hevs, hbs]⟩
      · split at h
        · obtain ⟨bs, hbs⟩ :=
            sendResponse_shape (s.bufout ++ (ioCopyAll ((s.lw.write step.arrived).2)).1)
          exact ⟨bs, by rw [← Option.some.inj h, hbs]⟩
        · refine ih _ evs ?_ h
          exact hseen

/-- From the initial kind of state (no data seen, empty output), a
terminating run either emits the single placeholder body write, or emits the
Content-Type header and the 200 status exactly once, followed by the single
body write — never body bytes before the header. -/
theorem driverLoop_unseen (maxIdle : Nat) :
    ∀ (steps : List DStep) (s : DrSt) (evs : List Ev), s.seenData = false →
      s.bufout = [] → driverLoop maxIdle steps s = some evs →
      evs = [Ev.write (strBytes placeholderMsg)] ∨
        ∃ bs, evs = [Ev.setContentType ctPlain, Ev.writeHeader 200, Ev.write bs] := by
  intro steps
  induction steps with
  | nil => intro s evs _ _ h; simp [driverLoop] at h
  | cons step rest ih =>
    intro s evs hseen hbuf h
    simp only [driverLoop] at h
    split at h
    · left
      rw [← Option.some.inj h]
      simp [sendResponse, hbuf]
    · split at h
      · right
        simp only [hseen, Bool.false_eq_true, if_false, Option.map_eq_some'] at h
        obtain ⟨evs', hrec, hevs⟩ := h
        obtain ⟨bs, hbs⟩ := driverLoop_seen maxIdle _ _ evs' rfl hrec
        refine ⟨bs, ?_⟩
        rw [← hevs, hbs]
        rfl
      · rename_i hnot
        have hr0 : (ioCopyAll ((s.lw.write step.arrived).2)).1 = [] := by
          cases hx : (ioCopyAll ((s.lw.write step.arrived).2)).1 with
          | nil => rfl
          | cons a l => exact absurd (by rw [hx]; simp) hnot
        split at h
        · left
          rw [← Option.some.inj h]
          simp [sendResponse, hbuf, hr0]
        · refine ih _ evs ?_ ?_ h
          · exact hseen
          · show s.bufout ++ (ioCopyAll ((s.lw.write step.arrived).2)).1 = []
            rw [hbuf, hr0]
            rfl

/-- If the spawned process writes nothing, the drain loop captures nothing
and a terminating run responds with exactly the literal placeholder body. -/
theorem driverLoop_no_output (maxIdle : Nat) :
    ∀ (steps : List DStep) (s : DrSt) (evs : List Ev),
      (∀ st ∈ steps, st.arrived = []) → s.lw.buf = [] → s.bufout = [] →
      driverLoop maxIdle steps s = some evs →
      evs = [Ev.write (strBytes placeholderMsg)] := by
  intro steps
  induction steps with
  | nil => intro s evs _ _ _ h; simp [driverLoop] at h
  | cons step rest ih =>
    intro s evs harr hlw hbuf h
    have harr0 : step.arrived = [] := harr step (by simp)
    have hlw1 : ((s.lw.write step.arrived).2).buf = [] := by
      unfold LimitWriter.write
      split
      · exact hlw
      · simp [hlw, harr0]
    have hcopy1 : (ioCopyAll ((s.lw.write step.arrived).2)).1 = [] := by
      unfold ioCopyAll
      split
      · rfl
      · simpa using hlw1
    have hcopy2 : ((ioCopyAll ((s.lw.write step.arrived).2)).2).buf = [] := by
      unfold ioCopyAll
      split
      · simpa using hlw1
      · rfl
    simp only [driverLoop] at h
    split at h
    · rw [← Option.some.inj h]
      simp [sendResponse, hbuf]
    · split at h
      · rename_i hpos
        rw [hcopy1] at hpos
        simp at hpos
      · split at h
        · rw [← Option.some.inj h]
          simp [sendResponse, hbuf, hcopy1]
        · refine ih _ evs (fun st hst => harr st (by simp [hst])) ?_ ?_ h
          · exact hcopy2
          · show s.bufout ++ (ioCopyAll ((s.lw.write step.arrived).2)).1 = []
            rw [hbuf, hcopy1]
            rfl

/-- Every event the drain loop emits is a response-side event: the loop never
kills a process and never touches the registry. -/
theorem driverLoop_response_only (maxIdle : Nat) :
    ∀ (steps : List DStep) (s : DrSt) (evs : List Ev),
      driverLoop maxIdle steps s = some evs → ∀ e ∈ evs, e.isResponse = true := by
  intro steps
  induction steps with
  | nil => intro s evs h; simp [driverLoop] at h
  | cons step rest ih =>
    intro s evs h
    simp only [driverLoop] at h
    split at h
    · intro e he
      rw [← Option.some.inj h] at he
      unfold sendResponse at he
      split at he <;> simp at he <;> simp [he, Ev.isResponse]
    · split at h
      · simp only [Option.map_eq_some'] at h
        obtain ⟨evs', hrec, hevs⟩ := h
        intro e he
        rw [← hevs] at he
        rcases List.mem_append.mp he with hin | hin
        · split at hin
          · simp at hin
          · rcases (by simpa using hin : e = Ev.setContentType ctPlain ∨
              e = Ev.writeHeader 200) with rfl | rfl <;> rfl
        · exact ih _ evs' hrec e hin
      · split at h
        · intro e he
          rw [← Option.some.inj h] at he
          unfold sendResponse at he
          split at he <;> simp at he <;> simp [he, Ev.isResponse]
        · exact ih _ evs h

/-- A byte that makes net/http content sniffing classify data as binary
(the control bytes 0x00-0x08, 0x0B, 0x0E-0x1A and 0x1C-0x1F). -/
def isBinaryByte (b : Nat) : Bool :=
  b ≤ 0x08 || b == 0x0B || (0x0E ≤ b && b ≤ 0x1A) || (0x1C ≤ b && b ≤ 0x1F)

/-- The net/http `DetectContentType` sniffer restricted to payloads, such as
the plain-text bodies of this program, that match none of its signature
patterns: it examines at most the first 512 bytes and classifies data with a
control byte as an octet stream and everything else as plain text. -/
def detectContentType (bs : List Nat) : String :=
  if (bs.take 512).any isBinaryByte then "application/octet-stream"
  else "text/plain; charset=utf-8"

/-- HTTP-level observations on the response wire: the single status line with
its Content-Type header, and body bytes. -/
inductive Wire where
  | header (status : Nat) (contentType : Option String)
  | body (bytes : List Nat)
deriving Repr, DecidableEq

/-- State of the net/http `ResponseWriter`: the Content-Type currently set in
the header map, and whether the header block has been sent. -/
structure RWState where
  ct : Option String
  wrote : Bool
deriving Repr, DecidableEq

/-- Documented net/http `ResponseWriter` behaviour for the calls this program
makes: `Header().Set` mutates the header map (no wire output);
`WriteHeader(code)` sends the header block once, with the Content-Type set at
that moment, and is a no-op if the block was already sent; `Write` first
sends an implicit `WriteHeader(200)` if none was sent — sniffing a
Content-Type from the data when none was set — and then sends the bytes;
`http.Error(w, msg, code)` sets a plain-text Content-Type, sends the header
block with `code` and writes the message followed by a newline. -/
def stepWire (st : RWState) (e : Ev) : RWState × List Wire :=
  match e with
  | .setContentType v => ({ st with ct := some v }, [])
  | .writeHeader code =>
      if st.wrote then (st, [])
      else ({ st with wrote := true }, [Wire.header code st.ct])
  | .write bs =>
      if st.wrote then (st, [Wire.body bs])
      else
        let c := st.ct.getD (detectContentType bs)
        ({ ct := some c, wrote := true }, [Wire.header 200 (some c), Wire.body bs])
  | .httpError code msg =>
      if st.wrote then (st, [Wire.body (strBytes (msg ++ "\n"))])
      else
        ({ ct := some ctPlain, wrote := true },
          [Wire.header code (some ctPlain), Wire.body (strBytes (msg ++ "\n"))])
  | .register _ _ => (st, [])
  | .unregister _ => (st, [])
  | .kill _ => (st, [])

/-- The wire output of a sequence of handler events, from a fresh response. -/
def wireOf (evs : List Ev) : List Wire :=
  (evs.foldl
    (fun (acc : RWState × List Wire) e =>
      let r := stepWire acc.1 e
      (r.1, acc.2 ++ r.2))
    ({ ct := none, wrote := false }, [])).2

theorem wire_placeholder :
    wireOf [Ev.write (strBytes placeholderMsg)] =
      [Wire.header 200 (some ctPlain), Wire.body (strBytes placeholderMsg)] := by
  have hct : detectContentType (strBytes placeholderMsg) = ctPlain := by decide
  simp [wireOf, stepWire, hct]

theorem wire_header_then_body (bs : List Nat) :
    wireOf [Ev.setContentType ctPlain, Ev.writeHeader 200, Ev.write bs] =
      [Wire.header 200 (some ctPlain), Wire.body bs] := by
  simp [wireOf, stepWire]

/-- C3: whenever the drain loop of a successfully spawned run terminates, the
response on the wire is exactly one header carrying the success status 200
and the plain-text content type, followed by the single body — the status and
content header are emitted exactly once and strictly before the first body
byte, whether the loop saw output (explicit header commit on the first
nonempty drain) or not (implicit header of net/http on the placeholder
write); and when the deadline or the idle timeout ends the loop with zero
bytes captured (the process wrote nothing), the body is exactly the literal
placeholder "Command started but no output yet.". -/
theorem driver_header_once_before_body (maxIdle t0 : Nat) (steps : List DStep)
    (evs : List Ev) (h : driverLoop maxIdle steps (initDriver t0) = some evs) :
    (∃ bs, wireOf evs = [Wire.header 200 (some ctPlain), Wire.body bs]) ∧
    ((∀ st ∈ steps, st.arrived = []) →
      wireOf evs = [Wire.header 200 (some ctPlain),
        Wire.body (strBytes placeholderMsg)]) := by
  constructor
  · rcases driverLoop_unseen maxIdle steps (initDriver t0) evs rfl rfl h with
      hpl | ⟨bs, hbs⟩
    · exact ⟨strBytes placeholderMsg, by rw [hpl, wire_placeholder]⟩
    · exact ⟨bs, by rw [hbs, wire_header_then_body]⟩
  · intro harr
    have := driverLoop_no_output maxIdle steps (initDriver t0) evs harr rfl rfl h
    rw [this, wire_placeholder]

/-- Concrete instance of `driver_header_once_before_body`: a run whose
deadline fires on the first iteration with no output produced responds with
the implicit 200 plain-text header and the placeholder body. -/
theorem driver_header_once_before_body_witness :
    (∃ bs, wireOf [Ev.write (strBytes placeholderMsg)] =
        [Wire.header 200 (some ctPlain), Wire.body bs]) ∧
      ((∀ st ∈ [(⟨3, true, []⟩ : DStep)], st.arrived = []) →
        wireOf [Ev.write (strBytes placeholderMsg)] =
          [Wire.header 200 (some ctPlain), Wire.body (strBytes placeholderMsg)]) :=
  driver_header_once_before_body 200 0 [⟨3, true, []⟩]
    [Ev.write (strBytes placeholderMsg)] rfl

/-- C8: for a run whose process starts successfully, finishing the drain loop
— the FINISHED state of the request — terminates nothing and leaves the
registry entry alone: every event the loop emits is a response-side event (no
kill, no registration, no unregistration), the process registered at start is
still the one in the registry, and exactly one completion watcher was spawned
for it; the watcher, once the process exit is observed, removes exactly that
entry — other entries survive, and no entry under the key remains. -/
theorem finish_keeps_process (rate tCheck pid tStart tRecord maxIdle t0 : Nat)
    (s : SState) (steps : List DStep) (evs : List Ev)
    (hA : rate = 0 ∨ s.lastRun + rate ≤ tCheck)
    (hD : driverLoop maxIdle steps (initDriver t0) = some evs) :
    (handleCommandStart rate tCheck true pid tStart tRecord s).outcome =
        .started tStart pid ∧
    (handleCommandStart rate tCheck true pid tStart tRecord s).state.children =
        insertChild s.children tStart pid ∧
    (handleCommandStart rate tCheck true pid tStart tRecord s).watcher = some tStart ∧
    (∀ p, Ev.kill p ∉ evs) ∧
    (∀ t q, Ev.register t q ∉ evs) ∧
    (∀ t, Ev.unregister t ∉ evs) ∧
    (∀ e ∈ insertChild s.children tStart pid, e.1 ≠ tStart →
      e ∈ (completionWatcher tStart (insertChild s.children tStart pid)).1) ∧
    (∀ q, (tStart, q) ∉
      (completionWatcher tStart (insertChild s.children tStart pid)).1) := by
  have hgate : ¬(rate ≠ 0 ∧ tCheck < s.lastRun + rate) := by
    rcases hA with h0 | hle
    · simp [h0]
    · exact fun hc => absurd hc.2 (Nat.not_lt.mpr hle)
  have hresp := driverLoop_response_only maxIdle steps (initDriver t0) evs hD
  refine ⟨?_, ?_, ?_, ?_, ?_, ?_, ?_, ?_⟩
  · unfold handleCommandStart
    simp [hgate]
  · unfold handleCommandStart
    simp [hgate]
  · unfold handleCommandStart
    simp [hgate]
  · intro p hin
    have := hresp _ hin
    simp [Ev.isResponse] at this
  · intro t q hin
    have := hresp _ hin
    simp [Ev.isResponse] at this
  · intro t hin
    have := hresp _ hin
    simp [Ev.isResponse] at this
  · intro e hin hne
    unfold completionWatcher
    exact List.mem_filter.mpr ⟨hin, by simpa using hne⟩
  · intro q hin
    unfold completionWatcher at hin
    have := (List.mem_filter.mp hin).2
    simp at this

/-- Concrete instance of `finish_keeps_process`: a run with the rate gate
disabled whose deadline fires immediately. -/
theorem finish_keeps_process_witness :
    (handleCommandStart 0 0 true 7 5 6 ⟨0, []⟩).outcome = .started 5 7 ∧
      (handleCommandStart 0 0 true 7 5 6 ⟨0, []⟩).state.children =
        insertChild [] 5 7 ∧
      (handleCommandStart 0 0 true 7 5 6 ⟨0, []⟩).watcher = some 5 ∧
      (∀ p, Ev.kill p ∉ [Ev.write (strBytes placeholderMsg)]) ∧
      (∀ t q, Ev.register t q ∉ [Ev.write (strBytes placeholderMsg)]) ∧
      (∀ t, Ev.unregister t ∉ [Ev.write (strBytes placeholderMsg)]) ∧
      (∀ e ∈ insertChild [] 5 7, e.1 ≠ 5 →
        e ∈ (completionWatcher 5 (insertChild [] 5 7)).1) ∧
      (∀ q, (5, q) ∉ (completionWatcher 5 (insertChild [] 5 7)).1) :=
  finish_keeps_process 0 0 7 5 6 200 0 ⟨0, []⟩ [⟨3, true, []⟩]
    [Ev.write (strBytes placeholderMsg)] (Or.inl rfl) rfl

/-- `io.MultiWriter(os.Stdout, lw).Write(p)` (lines 401-402): writes `p` to
`os.Stdout` — modelled as an append-only log; the operating system accepts
every byte — and then to the capture buffer through `limitWriter.Write`,
stopping with a short-write error if a writer accepts fewer than `len p`
bytes.  Result: ((stdout log, buffer state) after, whether it failed). -/
def multiWrite (outLog : List Nat) (lw : LimitWriter) (p : List Nat) :
    (List Nat × LimitWriter) × Bool :=
  let outLog2 := outLog ++ p
  let r := lw.write p
  ((outLog2, r.2), decide (r.1 < p.length))

/-- The stream of the spawned process: each chunk the process writes to its
standard output goes through the multi-writer; a failed write stops the
stream copy. -/
def writeOutputs : List (List Nat) → List Nat × LimitWriter → (List Nat × LimitWriter) × Bool
  | [], st => (st, false)
  | p :: ps, st =>
    let r := multiWrite st.1 st.2 p
    if r.2 then (r.1, true) else writeOutputs ps r.1

theorem writeOutputs_go (ps : List (List Nat)) :
    ∀ (outLog : List Nat) (lw : LimitWriter), lw.discarding = false →
      writeOutputs ps (outLog, lw) =
        ((outLog ++ ps.flatten, { lw with buf := lw.buf ++ ps.flatten }), false) := by
  induction ps with
  | nil => intro outLog lw _; simp [writeOutputs]
  | cons p ps ih =>
    intro outLog lw h
    have hw : lw.write p = (p.length, { lw with buf := lw.buf ++ p }) := by
      unfold LimitWriter.write
      simp [h]
    have := ih (outLog ++ p) { lw with buf := lw.buf ++ p } (by simp [h])
    simp only [writeOutputs, multiWrite, hw]
    simpa [List.append_assoc] using this

/-- C10: every chunk the spawned process writes to its standard output is
delivered both to the server process standard output and to the capture
buffer — the buffer ends up holding exactly the concatenation of all chunks,
the stdout log the same bytes, the multi-writer never reports an error, and
so capture into the buffer is not the only observable effect of the command
output. -/
theorem multiwriter_mirrors_output (ps : List (List Nat)) :
    writeOutputs ps ([], initLW) =
      ((ps.flatten, ⟨2 ^ 20, 0, ps.flatten, false⟩), false) := by
  have := writeOutputs_go ps [] initLW rfl
  simpa [initLW] using this
